import Mathlib

namespace FlyOrDie

/- ===================================================================================
   Shallow embedding of the anti-jamming core (src/src/src/anti_jamming.cpp),
   the mode switch (src/src/src/rc_channels.cpp), and the FHSS / Glock layer
   (header src/unnamed/part_000).
   =================================================================================== -/

/-- Wrap-around subtraction of 32-bit unsigned integers, as C computes `a - b` on `uint32_t`. -/
def sub32 (a b : Nat) : Nat := (a + (4294967296 - b % 4294967296)) % 4294967296

/-- Mirrors `u32_clamp` in anti_jamming.cpp. -/
def u32_clamp (x lo hi : Nat) : Nat := if x < lo then lo else if hi < x then hi else x

/-- Window mode enum (`aj_window_mode_t`). -/
inductive AjWindowMode
  | byCount
  | byTime
deriving DecidableEq

/-- Jam state enum (`aj_state_t`). -/
inductive AjState
  | notJammed
  | suspect
  | jammed
deriving DecidableEq

/-- Configuration (`aj_config_t`). -/
structure AjConfig where
  window_size_packets : Nat
  window_duration_ms : Nat
  window_mode : AjWindowMode
  jam_threshold_percent : Nat
  min_bad_packets : Nat
  consecutive_windows_to_jam : Nat
  jam_state_hold_time_ms : Nat
  min_time_between_reco_ms : Nat
  allow_group_switch_suggestions : Bool
deriving DecidableEq

/-- Ring entry (`aj_pkt_entry_t`). -/
structure AjPktEntry where
  good : Bool
  ts : Nat
deriving DecidableEq

/-- Report (`aj_report_t`). -/
structure AjReport where
  state : AjState
  score : Nat
  recommend_hop : Bool
  confidence : Nat
  when : Nat
  hop_aggressiveness_hint : Nat
deriving DecidableEq

/-- Hop suggestion (`aj_hop_suggestion_t`). -/
structure AjHopSuggestion where
  recommend : Bool
  confidence : Nat
  suggest_group_switch : Bool
  hop_aggressiveness_hint : Nat
  preferred_slot_index : Nat
  has_preferred_slot : Bool
deriving DecidableEq

/-- Context (`struct aj_ctx_s`).  `entries` models the flexible-array ring storage as
memory indexed by slot number; `hop_cb` records whether a hop callback is registered,
and `fired` is the (newest-first) log of callback invocations, each paired with the
`now` timestamp at which it fired. -/
structure AjCtx where
  cfg : AjConfig
  capacity : Nat
  count : Nat
  head : Nat
  bad_count : Nat
  window_start_ms : Nat
  last_now_ms : Nat
  state : AjState
  jam_streak : Nat
  last_jam_change_ms : Nat
  ext_jam_recent : Bool
  ext_jam_since_ms : Nat
  last_reco_ms : Nat
  last_report : AjReport
  hop_cb : Bool
  fired : List (Nat × AjHopSuggestion)
  entries : Nat → AjPktEntry

/-- Effective window duration (the `window_duration_ms ? window_duration_ms : 1u` idiom). -/
def aj_dur (cfg : AjConfig) : Nat := if cfg.window_duration_ms = 0 then 1 else cfg.window_duration_ms

/-- Cutoff used by `prune_old_by_time`: `(now_ms > dur) ? (now_ms - dur) : 0u`. -/
def aj_cutoff (cfg : AjConfig) (now_ms : Nat) : Nat :=
  if aj_dur cfg < now_ms then now_ms - aj_dur cfg else 0

/-- The `while` loop of `prune_old_by_time`, recursing on the current count.  Returns the
final `(count, bad_count)`.  Each iteration looks at the tail slot
`(head + capacity - count) % capacity` and stops when that entry is inside the window. -/
def pruneTailAux (entries : Nat → AjPktEntry) (cap head cutoff : Nat) : Nat → Nat → Nat × Nat
  | 0, bad => (0, bad)
  | c + 1, bad =>
    let e := entries ((head + cap - (c + 1)) % cap)
    if cutoff ≤ e.ts then (c + 1, bad)
    else pruneTailAux entries cap head cutoff c (if e.good = false ∧ 0 < bad then bad - 1 else bad)

/-- Apply the prune loop to a context. -/
def pruneTail (ctx : AjCtx) (cutoff : Nat) : AjCtx :=
  let r := pruneTailAux ctx.entries ctx.capacity ctx.head cutoff ctx.count ctx.bad_count
  { ctx with count := r.1, bad_count := r.2 }

/-- `prune_old_by_time` (anti_jamming.cpp lines 90-112). -/
def prune_old_by_time (ctx : AjCtx) (now_ms : Nat) : AjCtx :=
  if ctx.cfg.window_mode = AjWindowMode.byTime then pruneTail ctx (aj_cutoff ctx.cfg now_ms) else ctx

/-- `calc_score` (anti_jamming.cpp lines 115-135); the returned total/bad just mirror
`count`/`bad_count`, so only the score is computed here. -/
def calc_score (ctx : AjCtx) : Nat :=
  if 0 < ctx.count then
    let pct := ctx.bad_count * 100 / ctx.count
    if ctx.ext_jam_recent = true then u32_clamp (pct + 10) 0 100 else pct
  else 0

/-- `is_window_jammy` (anti_jamming.cpp lines 138-146). -/
def is_window_jammy (ctx : AjCtx) : Bool :=
  if ctx.bad_count < ctx.cfg.min_bad_packets then false
  else if ctx.cfg.jam_threshold_percent ≤ calc_score ctx then true else false

/-- `on_window_boundary` (anti_jamming.cpp lines 149-189). -/
def on_window_boundary (ctx : AjCtx) (now_ms : Nat) : AjCtx :=
  if is_window_jammy ctx = true then
    let streak := if ctx.jam_streak < 255 then ctx.jam_streak + 1 else ctx.jam_streak
    if ctx.cfg.consecutive_windows_to_jam ≤ streak then
      if ctx.state ≠ AjState.jammed then
        { ctx with jam_streak := streak, state := AjState.jammed, last_jam_change_ms := now_ms }
      else { ctx with jam_streak := streak }
    else
      if ctx.state = AjState.notJammed then
        { ctx with jam_streak := streak, state := AjState.suspect, last_jam_change_ms := now_ms }
      else { ctx with jam_streak := streak }
  else
    if ctx.state = AjState.jammed then
      if ctx.cfg.jam_state_hold_time_ms ≤ sub32 now_ms ctx.last_jam_change_ms then
        { ctx with jam_streak := 0, state := AjState.suspect, last_jam_change_ms := now_ms }
      else { ctx with jam_streak := 0 }
    else if ctx.state = AjState.suspect then
      if ctx.count = 0 ∨ calc_score ctx < ctx.cfg.jam_threshold_percent / 2 then
        { ctx with jam_streak := 0, state := AjState.notJammed, last_jam_change_ms := now_ms }
      else { ctx with jam_streak := 0 }
    else { ctx with jam_streak := 0 }

/-- `update_report` (anti_jamming.cpp lines 192-232). -/
def update_report (ctx : AjCtx) (now_ms : Nat) : AjCtx :=
  let score := calc_score ctx
  let conf :=
    if 0 < ctx.count then
      let over := if ctx.cfg.jam_threshold_percent < score then score - ctx.cfg.jam_threshold_percent else 0
      u32_clamp (u32_clamp ctx.count 0 100 / 2 + over) 0 100
    else 0
  let hint := score * 255 / 100
  let recommend :=
    if ctx.cfg.min_time_between_reco_ms ≤ sub32 now_ms ctx.last_reco_ms then
      if ctx.state = AjState.jammed then true
      else if ctx.state = AjState.suspect ∧ u32_clamp (ctx.cfg.jam_threshold_percent + 10) 0 100 ≤ score then true
      else false
    else false
  { ctx with last_report :=
      { state := ctx.state, score := score, recommend_hop := recommend,
        confidence := conf, when := now_ms, hop_aggressiveness_hint := hint } }

/-- The suggestion payload built by `maybe_fire_hop_callback` (anti_jamming.cpp
lines 243-258). -/
def fire_suggestion (ctx : AjCtx) : AjHopSuggestion :=
  { recommend := true,
    confidence := ctx.last_report.confidence,
    suggest_group_switch :=
      if ctx.cfg.allow_group_switch_suggestions = true ∧
         (80 ≤ ctx.last_report.score ∨ ctx.ext_jam_recent = true) then true else false,
    hop_aggressiveness_hint := ctx.last_report.hop_aggressiveness_hint,
    preferred_slot_index := 0,
    has_preferred_slot := false }

/-- `maybe_fire_hop_callback` (anti_jamming.cpp lines 235-264): a fire is recorded in the
`fired` log and updates `last_reco_ms`. -/
def maybe_fire_hop_callback (ctx : AjCtx) (now_ms : Nat) : AjCtx :=
  if ctx.hop_cb = false then ctx
  else if ctx.last_report.recommend_hop = false then ctx
  else
    { ctx with last_reco_ms := now_ms, fired := (now_ms, fire_suggestion ctx) :: ctx.fired }

/-- Config hardening performed inside `aj_internal_apply_cfg` (anti_jamming.cpp lines 282-303). -/
def harden_cfg (cfg : AjConfig) : AjConfig :=
  { cfg with
    window_duration_ms :=
      if cfg.window_mode = AjWindowMode.byTime ∧ cfg.window_duration_ms = 0 then 1000
      else cfg.window_duration_ms,
    min_time_between_reco_ms :=
      if cfg.min_time_between_reco_ms = 0 then 500 else cfg.min_time_between_reco_ms,
    consecutive_windows_to_jam :=
      if cfg.consecutive_windows_to_jam = 0 then 1 else cfg.consecutive_windows_to_jam,
    jam_threshold_percent :=
      if 100 < cfg.jam_threshold_percent then 100
      else if cfg.jam_threshold_percent < 1 then 1
      else cfg.jam_threshold_percent }

/-- `aj_internal_apply_cfg` (anti_jamming.cpp lines 282-303). -/
def aj_internal_apply_cfg (ctx : AjCtx) (cfg : AjConfig) : AjCtx :=
  { ctx with cfg := harden_cfg cfg,
             capacity := if cfg.window_size_packets = 0 then 1 else cfg.window_size_packets }

/-- `aj_init` (anti_jamming.cpp lines 305-351): zeroed buffer, then config applied. -/
def aj_init (cfg : AjConfig) : AjCtx :=
  aj_internal_apply_cfg
    { cfg := cfg, capacity := 1, count := 0, head := 0, bad_count := 0,
      window_start_ms := 0, last_now_ms := 0, state := AjState.notJammed, jam_streak := 0,
      last_jam_change_ms := 0, ext_jam_recent := false, ext_jam_since_ms := 0,
      last_reco_ms := 0,
      last_report := { state := AjState.notJammed, score := 0, recommend_hop := false,
                       confidence := 0, when := 0, hop_aggressiveness_hint := 0 },
      hop_cb := false, fired := [], entries := fun _ => { good := false, ts := 0 } }
    cfg

/-- `aj_configure` (anti_jamming.cpp lines 353-375). -/
def aj_configure (ctx : AjCtx) (cfg : AjConfig) : AjCtx :=
  let old_capacity := ctx.capacity
  let ctx1 := aj_internal_apply_cfg ctx cfg
  let ctx2 :=
    if ctx1.capacity ≠ old_capacity then { ctx1 with count := 0, head := 0, bad_count := 0 }
    else ctx1
  { ctx2 with window_start_ms := ctx2.last_now_ms, jam_streak := 0 }

/-- `aj_reset` (anti_jamming.cpp lines 377-401). -/
def aj_reset (ctx : AjCtx) : AjCtx :=
  { ctx with count := 0, head := 0, bad_count := 0,
             window_start_ms := ctx.last_now_ms, state := AjState.notJammed, jam_streak := 0,
             last_jam_change_ms := ctx.last_now_ms,
             ext_jam_recent := false, ext_jam_since_ms := 0,
             last_reco_ms := 0,
             last_report := { state := AjState.notJammed, score := 0, recommend_hop := false,
                              confidence := 0, when := ctx.last_now_ms,
                              hop_aggressiveness_hint := 0 } }

/-- `aj_set_hop_callback` (anti_jamming.cpp lines 541-546), tracking only whether a
callback is registered. -/
def aj_set_hop_callback (ctx : AjCtx) (cb : Bool) : AjCtx := { ctx with hop_cb := cb }

/-- Eviction plus insertion part of `aj_register_packet` (anti_jamming.cpp lines 412-427). -/
def aj_insert_step (ctx : AjCtx) (good : Bool) (time_ms : Nat) : AjCtx :=
  let ctx1 :=
    if ctx.count = ctx.capacity then
      if (ctx.entries ctx.head).good = false ∧ 0 < ctx.bad_count then
        { ctx with bad_count := ctx.bad_count - 1 }
      else ctx
    else { ctx with count := ctx.count + 1 }
  let ctx2 :=
    { ctx1 with
        entries := fun i => if i = ctx1.head then { good := good, ts := time_ms } else ctx1.entries i,
        bad_count := if good = false then ctx1.bad_count + 1 else ctx1.bad_count }
  { ctx2 with head := (ctx2.head + 1) % ctx2.capacity }

/-- BY_COUNT window boundary detection in `aj_register_packet` (lines 429-435). -/
def aj_boundary_step (ctx : AjCtx) (time_ms : Nat) : AjCtx :=
  if ctx.cfg.window_mode = AjWindowMode.byCount then
    if ctx.count = ctx.capacity ∧ ctx.head = 0 then on_window_boundary ctx time_ms else ctx
  else ctx

/-- `aj_register_packet` (anti_jamming.cpp lines 403-440). -/
def aj_register_packet (ctx : AjCtx) (good : Bool) (time_ms : Nat) : AjCtx :=
  maybe_fire_hop_callback
    (update_report
      (aj_boundary_step
        (aj_insert_step (prune_old_by_time { ctx with last_now_ms := time_ms } time_ms) good time_ms)
        time_ms)
      time_ms)
    time_ms

/-- `aj_register_external_jam` (anti_jamming.cpp lines 442-454). -/
def aj_register_external_jam (ctx : AjCtx) (time_ms : Nat) : AjCtx :=
  maybe_fire_hop_callback
    (update_report
      (prune_old_by_time
        { ctx with last_now_ms := time_ms, ext_jam_recent := true, ext_jam_since_ms := time_ms }
        time_ms)
      time_ms)
    time_ms

/-- Boundary-advance part of `aj_tick`'s BY_TIME branch (anti_jamming.cpp lines 465-473),
applied after pruning: if at least one full window elapsed, advance `window_start_ms` by
the whole number of elapsed windows (the `steps == 0` safety clause included) and process
one window boundary. -/
def aj_tick_window_core (ctx1 : AjCtx) (now_ms : Nat) : AjCtx :=
  if aj_dur ctx1.cfg ≤ sub32 now_ms ctx1.window_start_ms then
    on_window_boundary
      { ctx1 with window_start_ms :=
          (ctx1.window_start_ms +
            (if sub32 now_ms ctx1.window_start_ms / aj_dur ctx1.cfg = 0 then 1
             else sub32 now_ms ctx1.window_start_ms / aj_dur ctx1.cfg) * aj_dur ctx1.cfg) %
            4294967296 }
      now_ms
  else ctx1

/-- BY_TIME window maintenance part of `aj_tick` (anti_jamming.cpp lines 461-474). -/
def aj_tick_window (ctx : AjCtx) (now_ms : Nat) : AjCtx :=
  if ctx.cfg.window_mode = AjWindowMode.byTime then
    aj_tick_window_core (prune_old_by_time ctx now_ms) now_ms
  else ctx

/-- External-jam age-out limit used by `aj_tick` (lines 479-481). -/
def aj_ext_limit (cfg : AjConfig) : Nat :=
  if cfg.window_mode = AjWindowMode.byTime then
    if cfg.window_duration_ms = 0 then 1000 else cfg.window_duration_ms
  else 1000

/-- External-jam flag aging in `aj_tick` (anti_jamming.cpp lines 477-485). -/
def aj_tick_age_ext (ctx : AjCtx) (now_ms : Nat) : AjCtx :=
  if ctx.ext_jam_recent = true then
    if aj_ext_limit ctx.cfg ≤ sub32 now_ms ctx.ext_jam_since_ms then
      { ctx with ext_jam_recent := false }
    else ctx
  else ctx

/-- `aj_tick` (anti_jamming.cpp lines 456-489). -/
def aj_tick (ctx : AjCtx) (now_ms : Nat) : AjCtx :=
  update_report (aj_tick_age_ext (aj_tick_window { ctx with last_now_ms := now_ms } now_ms) now_ms) now_ms

/-- One public mutating call on an anti-jam context. -/
inductive AjOp
  | registerPacket (good : Bool) (t : Nat)
  | registerExternalJam (t : Nat)
  | tick (t : Nat)
  | reset
  | configure (cfg : AjConfig)
deriving DecidableEq

/-- Apply one call. -/
def aj_apply (ctx : AjCtx) : AjOp → AjCtx
  | AjOp.registerPacket good t => aj_register_packet ctx good t
  | AjOp.registerExternalJam t => aj_register_external_jam ctx t
  | AjOp.tick t => aj_tick ctx t
  | AjOp.reset => aj_reset ctx
  | AjOp.configure cfg => aj_configure ctx cfg

/-- Apply a sequence of calls, oldest first. -/
def aj_run (ctx : AjCtx) : List AjOp → AjCtx
  | [] => ctx
  | op :: ops => aj_run (aj_apply ctx op) ops

/-- Number of bad entries among the `count` valid ring slots (the slots at distances
`1..count` behind `head`, i.e. slot `(head + cap - k) % cap` for `k = 1..count`). -/
def countBad (entries : Nat → AjPktEntry) (cap head : Nat) : Nat → Nat
  | 0 => 0
  | c + 1 =>
    (if (entries ((head + cap - (c + 1)) % cap)).good = false then 1 else 0) +
      countBad entries cap head c

/-- The ring-buffer invariant of an anti-jam context: `bad_count` is the literal number of
bad entries in the ring, the ring never holds more than `capacity` entries, and the insert
position is a valid slot. -/
def RingInv (ctx : AjCtx) : Prop :=
  ctx.bad_count = countBad ctx.entries ctx.capacity ctx.head ctx.count ∧
  ctx.count ≤ ctx.capacity ∧ ctx.head < ctx.capacity

/-- Sequences made only of `aj_register_packet` / `aj_register_external_jam` calls whose
timestamps are non-decreasing, all at or after `lo`. -/
inductive RegSeq : Nat → List AjOp → Prop
  | nil (lo : Nat) : RegSeq lo []
  | pkt (lo t : Nat) (good : Bool) (ops : List AjOp) :
      lo ≤ t → RegSeq t ops → RegSeq lo (AjOp.registerPacket good t :: ops)
  | extj (lo t : Nat) (ops : List AjOp) :
      lo ≤ t → RegSeq t ops → RegSeq lo (AjOp.registerExternalJam t :: ops)

/- ===================== Mode switch (src/src/src/rc_channels.cpp) ===================== -/

/-- Return codes (`aj_switch_result_t`). -/
inductive AjSwitchResult
  | ok
  | denied
  | nochange
  | invalid
deriving DecidableEq

/-- Switch context (`struct aj_switch_ctx_s`).  Modes are encoded as in the C enum:
0 = AUTO, 1 = LOW, 2 = HIGH.  `cb` records whether a notify callback is registered and
`notified` is the (newest-first) log of notify invocations `(enabled, mode, when)`. -/
structure AjSwitchCtx where
  enabled : Bool
  mode : Nat
  controller_only : Bool
  last_change_ms : Nat
  cb : Bool
  notified : List (Bool × Nat × Nat)
deriving DecidableEq

/-- `notify_if_changed` (rc_channels.cpp lines 43-48). -/
def notify_if_changed (ctx : AjSwitchCtx) : AjSwitchCtx :=
  if ctx.cb = true then
    { ctx with notified := (ctx.enabled, ctx.mode, ctx.last_change_ms) :: ctx.notified }
  else ctx

/-- `aj_switch_init` (rc_channels.cpp lines 57-71), with a registered callback flag. -/
def aj_switch_init (cb : Bool) : AjSwitchCtx :=
  { enabled := false, mode := 0, controller_only := false, last_change_ms := 0,
    cb := cb, notified := [] }

/-- `aj_switch_set_enabled` (rc_channels.cpp lines 82-91). -/
def aj_switch_set_enabled (ctx : AjSwitchCtx) (enable : Bool) (when_ms : Nat) :
    AjSwitchCtx × AjSwitchResult :=
  if ctx.enabled = enable then (ctx, AjSwitchResult.nochange)
  else
    (notify_if_changed { ctx with enabled := enable, last_change_ms := when_ms },
      AjSwitchResult.ok)

/-- `aj_switch_set_mode_local` (rc_channels.cpp lines 99-110). -/
def aj_switch_set_mode_local (ctx : AjSwitchCtx) (mode when_ms : Nat) :
    AjSwitchCtx × AjSwitchResult :=
  if 2 < mode then (ctx, AjSwitchResult.invalid)
  else if ctx.controller_only = true then (ctx, AjSwitchResult.denied)
  else if ctx.mode = mode then (ctx, AjSwitchResult.nochange)
  else
    (notify_if_changed { ctx with mode := mode, last_change_ms := when_ms }, AjSwitchResult.ok)

/-- `aj_switch_set_mode_from_controller` (rc_channels.cpp lines 112-122). -/
def aj_switch_set_mode_from_controller (ctx : AjSwitchCtx) (mode when_ms : Nat) :
    AjSwitchCtx × AjSwitchResult :=
  if 2 < mode then (ctx, AjSwitchResult.invalid)
  else if ctx.mode = mode then (ctx, AjSwitchResult.nochange)
  else
    (notify_if_changed { ctx with mode := mode, last_change_ms := when_ms }, AjSwitchResult.ok)

/-- `aj_switch_request_enable_from_controller` (rc_channels.cpp lines 142-151). -/
def aj_switch_request_enable_from_controller (ctx : AjSwitchCtx) (enable : Bool) (when_ms : Nat) :
    AjSwitchCtx × AjSwitchResult :=
  if ctx.enabled = enable then (ctx, AjSwitchResult.nochange)
  else
    (notify_if_changed { ctx with enabled := enable, last_change_ms := when_ms },
      AjSwitchResult.ok)

/-- One set-operation on a switch context. -/
inductive SwOp
  | setEnabled (v : Bool) (t : Nat)
  | setModeLocal (m t : Nat)
  | setModeFromController (m t : Nat)
  | requestEnableFromController (v : Bool) (t : Nat)

/-- Apply one set-operation, returning the new context and the result code. -/
def sw_apply (ctx : AjSwitchCtx) : SwOp → AjSwitchCtx × AjSwitchResult
  | SwOp.setEnabled v t => aj_switch_set_enabled ctx v t
  | SwOp.setModeLocal m t => aj_switch_set_mode_local ctx m t
  | SwOp.setModeFromController m t => aj_switch_set_mode_from_controller ctx m t
  | SwOp.requestEnableFromController v t => aj_switch_request_enable_from_controller ctx v t

/-- The operation's argument equals the corresponding current value of the context. -/
def SwOp.argEq (ctx : AjSwitchCtx) : SwOp → Prop
  | SwOp.setEnabled v _ => ctx.enabled = v
  | SwOp.setModeLocal m _ => ctx.mode = m
  | SwOp.setModeFromController m _ => ctx.mode = m
  | SwOp.requestEnableFromController v _ => ctx.enabled = v

/-- Whether the operation is a local mode change (the one subject to `controller_only`). -/
def SwOp.isLocalMode : SwOp → Bool
  | SwOp.setModeLocal _ _ => true
  | _ => false

/- ======================= FHSS Glock barrier and frequency map ======================= -/

/-- Shared Glock state (`FHSSptrSynced`, `FHSSHopCycleArmed`, `FHSSSyncEpoch` in the
FHSS header, src/unnamed/part_000 lines 284-306). -/
structure GlockState where
  ptrSynced : Nat
  armed : Bool
  epoch : Nat
deriving DecidableEq

/-- Modelled from the spec: `FHSSBeginHopCycle` is only declared in the FHSS header under
src/ (its body is not in the repository snapshot).  Spec §4.C: `begin_cycle()` arms the
barrier and increments the epoch. -/
def FHSSBeginHopCycle (s : GlockState) : GlockState :=
  { s with armed := true, epoch := s.epoch + 1 }

/-- Modelled from the spec: `FHSSHopNextSynced` is only declared in the FHSS header under
src/ (its body is not in the repository snapshot).  Spec §4.C: the first caller in the
armed state advances `cursor = (cursor + 1) mod sequence_length`, disarms the barrier and
returns the frequency at the new cursor; subsequent callers in the same cycle return the
frequency at the unchanged cursor; `radio_id` selects which band's frequency map is used
(`freqOf radio_id index`). -/
def FHSSHopNextSynced (len : Nat) (freqOf : Nat → Nat → Nat) (s : GlockState) (radio_id : Nat) :
    GlockState × Nat :=
  if s.armed = true then
    ({ s with ptrSynced := (s.ptrSynced + 1) % len, armed := false },
      freqOf radio_id ((s.ptrSynced + 1) % len))
  else (s, freqOf radio_id s.ptrSynced)

/-- Run a list of `FHSSHopNextSynced` calls (by either radio, in any order), collecting
each caller's `(radio_id, returned frequency)`. -/
def runHopCalls (len : Nat) (freqOf : Nat → Nat → Nat) :
    GlockState → List Nat → GlockState × List (Nat × Nat)
  | s, [] => (s, [])
  | s, r :: rs =>
    let p := FHSSHopNextSynced len freqOf s r
    let q := runHopCalls len freqOf p.1 rs
    (q.1, (r, p.2) :: q.2)

/-- Band descriptor (`fhss_config_t`, minus the domain string). -/
structure FhssConfig where
  freq_start : Nat
  freq_stop : Nat
  freq_count : Nat
  freq_center : Nat
deriving DecidableEq

/-- Modelled from the spec: the initialisation of the global `freq_spread` lives in
FHSS.cpp, which is not in the repository snapshot; spec §4.B gives
`spread = (freq_stop − freq_start) / (freq_count − 1)` held at `SPREAD_SCALE`
fixed-point precision. -/
def freq_spread_of (cfg : FhssConfig) (scale : Nat) : Nat :=
  (cfg.freq_stop - cfg.freq_start) * scale / (cfg.freq_count - 1)

/-- Frequency computed by `FHSSgetNextFreq` (src/unnamed/part_000 lines 192-208) for a
sequence value `seqv` and zero frequency correction:
`freq_start + freq_spread * seqv / FREQ_SPREAD_SCALE`. -/
def FHSSfreqOfSeqValue (cfg : FhssConfig) (spread scale seqv : Nat) : Nat :=
  cfg.freq_start + spread * seqv / scale

/- ============================== Concrete test fixtures ============================== -/

/-- Configuration of the spec's detection-threshold scenario (spec §8, scenario 1). -/
def c4cfg : AjConfig :=
  { window_size_packets := 100, window_duration_ms := 1000, window_mode := AjWindowMode.byCount,
    jam_threshold_percent := 30, min_bad_packets := 5, consecutive_windows_to_jam := 1,
    jam_state_hold_time_ms := 0, min_time_between_reco_ms := 0,
    allow_group_switch_suggestions := false }

/-- Freshly initialised context for the detection-threshold scenario, with a registered
hop callback. -/
def c4ctx : AjCtx := aj_set_hop_callback (aj_init c4cfg) true

/-- 100 packets, 30 bad, uniformly distributed (packet `i` is bad iff `i % 10 < 3`),
10 ms apart: packet `i` (0-based) arrives at `10 * (i + 1)` ms. -/
def c4ops_spaced : List AjOp :=
  (List.range 100).map (fun i => AjOp.registerPacket (decide (3 ≤ i % 10)) (10 * (i + 1)))

/-- The same 100 packets but 1 ms apart: packet `i` arrives at `i` ms, so the whole burst
fits inside the hardened 500 ms recommendation guard. -/
def c4ops_fast : List AjOp :=
  (List.range 100).map (fun i => AjOp.registerPacket (decide (3 ≤ i % 10)) i)

/-- First half (packets 0..49) of the 10 ms-spaced scenario. -/
def c4opsSpacedA : List AjOp :=
  (List.range 50).map (fun i => AjOp.registerPacket (decide (3 ≤ i % 10)) (10 * (i + 1)))

/-- Second half (packets 50..99) of the 10 ms-spaced scenario. -/
def c4opsSpacedB : List AjOp :=
  ((List.range 100).drop 50).map (fun i => AjOp.registerPacket (decide (3 ≤ i % 10)) (10 * (i + 1)))

/-- First half (packets 0..49) of the 1 ms-spaced scenario. -/
def c4opsFastA : List AjOp :=
  (List.range 50).map (fun i => AjOp.registerPacket (decide (3 ≤ i % 10)) i)

/-- Second half (packets 50..99) of the 1 ms-spaced scenario. -/
def c4opsFastB : List AjOp :=
  ((List.range 100).drop 50).map (fun i => AjOp.registerPacket (decide (3 ≤ i % 10)) i)

/-- The context reached after the first 50 packets of the 10 ms-spaced scenario, written
out field by field (the ring memory is never read back in a BY_COUNT run, so it is
carried opaquely). -/
def c4midSpaced : AjCtx :=
  { cfg := harden_cfg c4cfg, capacity := 100, count := 50, head := 50, bad_count := 15,
    window_start_ms := 0, last_now_ms := 500, state := AjState.notJammed, jam_streak := 0,
    last_jam_change_ms := 0, ext_jam_recent := false, ext_jam_since_ms := 0, last_reco_ms := 0,
    last_report := { state := AjState.notJammed, score := 30, recommend_hop := false,
                     confidence := 25, when := 500, hop_aggressiveness_hint := 76 },
    hop_cb := true, fired := [], entries := (aj_run c4ctx c4opsSpacedA).entries }

/-- The context reached after the first 50 packets of the 1 ms-spaced scenario. -/
def c4midFast : AjCtx :=
  { cfg := harden_cfg c4cfg, capacity := 100, count := 50, head := 50, bad_count := 15,
    window_start_ms := 0, last_now_ms := 49, state := AjState.notJammed, jam_streak := 0,
    last_jam_change_ms := 0, ext_jam_recent := false, ext_jam_since_ms := 0, last_reco_ms := 0,
    last_report := { state := AjState.notJammed, score := 30, recommend_hop := false,
                     confidence := 25, when := 49, hop_aggressiveness_hint := 76 },
    hop_cb := true, fired := [], entries := (aj_run c4ctx c4opsFastA).entries }

/-- A switch context with `controller_only` enabled and a registered notify callback. -/
def c5ctx : AjSwitchCtx :=
  { enabled := false, mode := 0, controller_only := true, last_change_ms := 0,
    cb := true, notified := [] }

/- ==================================== Theorems ==================================== -/

/-- Running calls on an unarmed Glock leaves the state unchanged and every caller reads
the frequency at the current synced cursor. -/
theorem runHopCalls_unarmed (len : Nat) (freqOf : Nat → Nat → Nat) (s : GlockState)
    (rs : List Nat) (h : s.armed = false) :
    (runHopCalls len freqOf s rs).1 = s ∧
      ∀ p ∈ (runHopCalls len freqOf s rs).2, p.2 = freqOf p.1 s.ptrSynced := by
  induction rs with
  | nil => exact ⟨rfl, by simp [runHopCalls]⟩
  | cons r rs ih =>
    have hs : FHSSHopNextSynced len freqOf s r = (s, freqOf r s.ptrSynced) := by
      simp [FHSSHopNextSynced, h]
    simp only [runHopCalls, hs]
    refine ⟨ih.1, ?_⟩
    intro p hp
    simp only [List.mem_cons] at hp
    rcases hp with hp | hp
    · subst hp; rfl
    · exact ih.2 p hp

/-- C1: within one cycle opened by `FHSSBeginHopCycle`, any nonempty sequence of
`FHSSHopNextSynced` calls (by either radio, in any order) advances the synced cursor
exactly once — to `(cursor + 1) mod len` — and every caller's returned frequency is the
one at that same post-advance cursor for its own radio. -/
theorem glock_single_advance (len : Nat) (freqOf : Nat → Nat → Nat) (s : GlockState)
    (rs : List Nat) (hne : rs ≠ []) :
    (runHopCalls len freqOf (FHSSBeginHopCycle s) rs).1.ptrSynced = (s.ptrSynced + 1) % len ∧
      ∀ p ∈ (runHopCalls len freqOf (FHSSBeginHopCycle s) rs).2,
        p.2 = freqOf p.1 ((s.ptrSynced + 1) % len) := by
  cases rs with
  | nil => exact absurd rfl hne
  | cons r rs =>
    have hfirst :
        FHSSHopNextSynced len freqOf (FHSSBeginHopCycle s) r =
          ({ ptrSynced := (s.ptrSynced + 1) % len, armed := false, epoch := s.epoch + 1 },
            freqOf r ((s.ptrSynced + 1) % len)) := by
      simp [FHSSHopNextSynced, FHSSBeginHopCycle]
    have hrest := runHopCalls_unarmed len freqOf
      { ptrSynced := (s.ptrSynced + 1) % len, armed := false, epoch := s.epoch + 1 } rs rfl
    simp only [runHopCalls, hfirst]
    refine ⟨by rw [hrest.1], ?_⟩
    intro p hp
    simp only [List.mem_cons] at hp
    rcases hp with hp | hp
    · subst hp; rfl
    · exact hrest.2 p hp

/-- C6: with `controller_only` set, `aj_switch_set_mode_local` applied to any in-range
mode returns DENIED, leaves every context field (including the notify log) unchanged, and
fires no notification. -/
theorem aj_switch_local_mode_denied (ctx : AjSwitchCtx) (mode when_ms : Nat)
    (hco : ctx.controller_only = true) (hm : mode ≤ 2) :
    aj_switch_set_mode_local ctx mode when_ms = (ctx, AjSwitchResult.denied) := by
  unfold aj_switch_set_mode_local
  rw [if_neg (by omega), if_pos hco]

/-- Witness for C6 at a concrete input. -/
theorem aj_switch_local_mode_denied_witness :
    c5ctx.controller_only = true ∧ (1 : Nat) ≤ 2 ∧
      aj_switch_set_mode_local c5ctx 1 7 = (c5ctx, AjSwitchResult.denied) :=
  ⟨rfl, by decide, aj_switch_local_mode_denied c5ctx 1 7 rfl (by decide)⟩

/-- C10: under `controller_only` the policy check of `aj_switch_set_mode_local` takes
precedence over the no-change check — even a request for the currently active mode is
DENIED — while an out-of-range mode is INVALID regardless of `controller_only`. -/
theorem aj_switch_denied_precedence (ctx ctx2 : AjSwitchCtx) (m when_ms : Nat)
    (hco : ctx.controller_only = true) (hmode : ctx.mode ≤ 2) (hm : 2 < m) :
    (aj_switch_set_mode_local ctx ctx.mode when_ms).2 = AjSwitchResult.denied ∧
      (aj_switch_set_mode_local ctx2 m when_ms).2 = AjSwitchResult.invalid := by
  constructor
  · unfold aj_switch_set_mode_local
    rw [if_neg (by omega), if_pos hco]
  · unfold aj_switch_set_mode_local
    rw [if_pos hm]

/-- Witness for C10 at a concrete input. -/
theorem aj_switch_denied_precedence_witness :
    c5ctx.controller_only = true ∧ c5ctx.mode ≤ 2 ∧ (2 : Nat) < 5 ∧
      ((aj_switch_set_mode_local c5ctx c5ctx.mode 3).2 = AjSwitchResult.denied ∧
        (aj_switch_set_mode_local (aj_switch_init true) 5 3).2 = AjSwitchResult.invalid) :=
  ⟨rfl, by decide, by decide,
    aj_switch_denied_precedence c5ctx (aj_switch_init true) 5 3 rfl (by decide) (by decide)⟩

/-- C5 counterexample: with a registered callback, `controller_only = 1` and a
`set_mode_local` request for the mode already active, the call returns DENIED — not the
NOCHANGE the claim promises for every equal-argument set call (notify still does not
fire). -/
theorem aj_switch_nochange_counterexample :
    (aj_switch_set_mode_local c5ctx c5ctx.mode 3).2 = AjSwitchResult.denied ∧
      (aj_switch_set_mode_local c5ctx c5ctx.mode 3).2 ≠ AjSwitchResult.nochange ∧
      c5ctx.cb = true := by decide

/-- C5 (amended): with a registered callback, a set-operation fires notify exactly when it
actually changed `enabled` or `mode`; an equal-argument set call never fires notify and
returns NOCHANGE — except `set_mode_local` under `controller_only`, which returns DENIED. -/
theorem aj_switch_notify_iff_changed (ctx : AjSwitchCtx) (op : SwOp)
    (hcb : ctx.cb = true) (hm : ctx.mode ≤ 2) :
    ((sw_apply ctx op).1.notified ≠ ctx.notified ↔
      ((sw_apply ctx op).1.enabled ≠ ctx.enabled ∨ (sw_apply ctx op).1.mode ≠ ctx.mode)) ∧
    (op.argEq ctx →
      (sw_apply ctx op).1.notified = ctx.notified ∧
      (sw_apply ctx op).2 =
        (if op.isLocalMode = true ∧ ctx.controller_only = true then AjSwitchResult.denied
         else AjSwitchResult.nochange)) := by
  cases op with
  | setEnabled v t =>
    by_cases h : ctx.enabled = v
    · simp [sw_apply, aj_switch_set_enabled, h, SwOp.argEq, SwOp.isLocalMode]
    · simp [sw_apply, aj_switch_set_enabled, h, SwOp.argEq, SwOp.isLocalMode,
        notify_if_changed, hcb]
      intro hne
      exact h hne.symm
  | setModeLocal m t =>
    by_cases hr : 2 < m
    · have hne : ctx.mode ≠ m := by omega
      simp [sw_apply, aj_switch_set_mode_local, hr, SwOp.argEq, SwOp.isLocalMode, hne]
    · by_cases hco : ctx.controller_only = true
      · simp [sw_apply, aj_switch_set_mode_local, hr, hco, SwOp.argEq, SwOp.isLocalMode]
      · by_cases h : ctx.mode = m
        · simp [sw_apply, aj_switch_set_mode_local, hr, hco, h, SwOp.argEq, SwOp.isLocalMode]
        · simp [sw_apply, aj_switch_set_mode_local, hr, hco, h, SwOp.argEq, SwOp.isLocalMode,
            notify_if_changed, hcb]
          intro hne
          exact h hne.symm
  | setModeFromController m t =>
    by_cases hr : 2 < m
    · have hne : ctx.mode ≠ m := by omega
      simp [sw_apply, aj_switch_set_mode_from_controller, hr, SwOp.argEq, SwOp.isLocalMode, hne]
    · by_cases h : ctx.mode = m
      · simp [sw_apply, aj_switch_set_mode_from_controller, hr, h, SwOp.argEq, SwOp.isLocalMode]
      · simp [sw_apply, aj_switch_set_mode_from_controller, hr, h, SwOp.argEq, SwOp.isLocalMode,
          notify_if_changed, hcb]
        intro hne
        exact h hne.symm
  | requestEnableFromController v t =>
    by_cases h : ctx.enabled = v
    · simp [sw_apply, aj_switch_request_enable_from_controller, h, SwOp.argEq, SwOp.isLocalMode]
    · simp [sw_apply, aj_switch_request_enable_from_controller, h, SwOp.argEq, SwOp.isLocalMode,
        notify_if_changed, hcb]
      intro hne
      exact h hne.symm

/-- Witness for C5's amended theorem at a concrete input. -/
theorem aj_switch_notify_iff_changed_witness :
    (aj_switch_init true).cb = true ∧ (aj_switch_init true).mode ≤ 2 ∧
      (((sw_apply (aj_switch_init true) (SwOp.setEnabled true 5)).1.notified
            ≠ (aj_switch_init true).notified ↔
          ((sw_apply (aj_switch_init true) (SwOp.setEnabled true 5)).1.enabled
              ≠ (aj_switch_init true).enabled ∨
            (sw_apply (aj_switch_init true) (SwOp.setEnabled true 5)).1.mode
              ≠ (aj_switch_init true).mode)) ∧
        ((SwOp.setEnabled true 5).argEq (aj_switch_init true) →
          (sw_apply (aj_switch_init true) (SwOp.setEnabled true 5)).1.notified
              = (aj_switch_init true).notified ∧
          (sw_apply (aj_switch_init true) (SwOp.setEnabled true 5)).2 =
            (if (SwOp.setEnabled true 5).isLocalMode = true ∧
                (aj_switch_init true).controller_only = true then AjSwitchResult.denied
             else AjSwitchResult.nochange))) :=
  ⟨rfl, by decide,
    aj_switch_notify_iff_changed (aj_switch_init true) (SwOp.setEnabled true 5) rfl (by decide)⟩

/-- C8: with zero correction, for any band whose limits are ordered and any sequence value
below the band's channel count, the frequency computed as in `FHSSgetNextFreq` (with the
spec's spread value) stays within `[freq_start, freq_stop]`. -/
theorem fhss_freq_in_band (cfg : FhssConfig) (scale seqv : Nat)
    (hscale : 0 < scale) (hseq : seqv < cfg.freq_count)
    (hband : cfg.freq_start ≤ cfg.freq_stop) :
    cfg.freq_start ≤ FHSSfreqOfSeqValue cfg (freq_spread_of cfg scale) scale seqv ∧
      FHSSfreqOfSeqValue cfg (freq_spread_of cfg scale) scale seqv ≤ cfg.freq_stop := by
  refine ⟨Nat.le_add_right _ _, ?_⟩
  unfold FHSSfreqOfSeqValue freq_spread_of
  have hs : seqv ≤ cfg.freq_count - 1 := by omega
  have h2 : (cfg.freq_stop - cfg.freq_start) * scale / (cfg.freq_count - 1) * seqv ≤
      (cfg.freq_stop - cfg.freq_start) * scale / (cfg.freq_count - 1) * (cfg.freq_count - 1) :=
    Nat.mul_le_mul_left _ hs
  have h3 : (cfg.freq_stop - cfg.freq_start) * scale / (cfg.freq_count - 1) * (cfg.freq_count - 1)
      ≤ (cfg.freq_stop - cfg.freq_start) * scale := Nat.div_mul_le_self _ _
  have h4 : (cfg.freq_stop - cfg.freq_start) * scale / (cfg.freq_count - 1) * seqv / scale ≤
      (cfg.freq_stop - cfg.freq_start) * scale / scale :=
    Nat.div_le_div_right (Nat.le_trans h2 h3)
  rw [Nat.mul_div_cancel _ hscale] at h4
  omega

/-- Witness for C8 at a concrete input. -/
theorem fhss_freq_in_band_witness :
    (0 : Nat) < 256 ∧ (10 : Nat) < 11 ∧ (900 : Nat) ≤ 1000 ∧
      (900 ≤ FHSSfreqOfSeqValue ⟨900, 1000, 11, 950⟩ (freq_spread_of ⟨900, 1000, 11, 950⟩ 256) 256 10 ∧
        FHSSfreqOfSeqValue ⟨900, 1000, 11, 950⟩ (freq_spread_of ⟨900, 1000, 11, 950⟩ 256) 256 10 ≤ 1000) :=
  ⟨by decide, by decide, by decide,
    fhss_freq_in_band ⟨900, 1000, 11, 950⟩ 256 10 (by decide) (by decide) (by decide)⟩

/-- Projection helper: firing the hop callback does not change the cached report. -/
theorem maybe_fire_last_report (ctx : AjCtx) (t : Nat) :
    (maybe_fire_hop_callback ctx t).last_report = ctx.last_report := by
  unfold maybe_fire_hop_callback
  split
  · rfl
  · split <;> rfl

/-- Projection helper: the score stored by `update_report` is `calc_score`. -/
theorem update_report_score (ctx : AjCtx) (t : Nat) :
    (update_report ctx t).last_report.score = calc_score ctx := rfl

/-- Projection helper: pruning an empty ring leaves the count at zero. -/
theorem prune_old_count_zero (ctx : AjCtx) (t : Nat) (h : ctx.count = 0) :
    (prune_old_by_time ctx t).count = 0 := by
  unfold prune_old_by_time pruneTail
  split
  · simp only [h, pruneTailAux]
  · exact h

/-- Helper: the score of a context with an empty ring is zero. -/
theorem calc_score_of_count_zero (ctx : AjCtx) (h : ctx.count = 0) : calc_score ctx = 0 := by
  simp [calc_score, h]

/-- C9: with an empty ring the computed score is 0, and even registering an external jam
(which sets the sticky flag) reports score 0 — the +10 external-jam bonus applies only
when at least one packet is in the window. -/
theorem aj_empty_ring_score_zero (ctx : AjCtx) (t : Nat) (h : ctx.count = 0) :
    calc_score ctx = 0 ∧ (aj_register_external_jam ctx t).last_report.score = 0 := by
  refine ⟨calc_score_of_count_zero ctx h, ?_⟩
  unfold aj_register_external_jam
  rw [maybe_fire_last_report, update_report_score]
  exact calc_score_of_count_zero _ (prune_old_count_zero _ _ h)

/-- Witness for C9 at a concrete input: an external jam on a freshly initialised (empty)
context still reports score 0. -/
theorem aj_empty_ring_score_zero_witness :
    (aj_init c4cfg).count = 0 ∧
      (calc_score (aj_init c4cfg) = 0 ∧
        (aj_register_external_jam (aj_init c4cfg) 500).last_report.score = 0) :=
  ⟨rfl, aj_empty_ring_score_zero (aj_init c4cfg) 500 rfl⟩

/-- Bound on wrap-around subtraction. -/
theorem sub32_lt (a b : Nat) : sub32 a b < 4294967296 := by
  unfold sub32; omega

/-- Reducing the subtrahend mod 2^32 does not change wrap-around subtraction. -/
theorem sub32_mod_right (a b : Nat) : sub32 a (b % 4294967296) = sub32 a b := by
  unfold sub32; omega

/-- Wrap-around subtraction peels off an added term. -/
theorem sub32_add_right (a b k : Nat) : sub32 a (b + k) = sub32 (sub32 a b) k := by
  unfold sub32; omega

/-- Wrap-around subtraction agrees with truncated subtraction within range. -/
theorem sub32_sub_of_le (e k : Nat) (he : e < 4294967296) (hk : k ≤ e) : sub32 e k = e - k := by
  unfold sub32; omega

/-- The effective window duration is positive. -/
theorem aj_dur_pos (cfg : AjConfig) : 0 < aj_dur cfg := by
  unfold aj_dur; split <;> omega

/-- After advancing `window_start_ms` by whole window steps, the residual elapsed time is
below one window duration. -/
theorem sub32_window_advance (t ws dur : Nat) (hdur : 0 < dur) (h : dur ≤ sub32 t ws) :
    sub32 t ((ws + (sub32 t ws / dur) * dur) % 4294967296) < dur := by
  rw [sub32_mod_right, sub32_add_right]
  have h1 : (sub32 t ws / dur) * dur ≤ sub32 t ws := Nat.div_mul_le_self _ _
  rw [sub32_sub_of_le _ _ (sub32_lt t ws) h1]
  have h2 : sub32 t ws / dur * dur + sub32 t ws % dur = sub32 t ws := Nat.div_add_mod' _ _
  have h3 : sub32 t ws % dur < dur := Nat.mod_lt _ hdur
  omega

/-- The prune loop is idempotent: rerunning it on its own output removes nothing. -/
theorem pruneTailAux_idem (entries : Nat → AjPktEntry) (cap head cutoff : Nat) :
    ∀ c bad : Nat,
      pruneTailAux entries cap head cutoff
          (pruneTailAux entries cap head cutoff c bad).1
          (pruneTailAux entries cap head cutoff c bad).2 =
        pruneTailAux entries cap head cutoff c bad := by
  intro c
  induction c with
  | zero => intro bad; simp [pruneTailAux]
  | succ c ih =>
    intro bad
    by_cases h : cutoff ≤ (entries ((head + cap - (c + 1)) % cap)).ts
    · simp [pruneTailAux, h]
    · simp only [pruneTailAux, if_neg h]
      exact ih _

theorem on_window_boundary_count (ctx : AjCtx) (t : Nat) :
    (on_window_boundary ctx t).count = ctx.count := by
  simp only [on_window_boundary]; split_ifs <;> rfl

theorem on_window_boundary_bad_count (ctx : AjCtx) (t : Nat) :
    (on_window_boundary ctx t).bad_count = ctx.bad_count := by
  simp only [on_window_boundary]; split_ifs <;> rfl

theorem on_window_boundary_head (ctx : AjCtx) (t : Nat) :
    (on_window_boundary ctx t).head = ctx.head := by
  simp only [on_window_boundary]; split_ifs <;> rfl

theorem on_window_boundary_capacity (ctx : AjCtx) (t : Nat) :
    (on_window_boundary ctx t).capacity = ctx.capacity := by
  simp only [on_window_boundary]; split_ifs <;> rfl

theorem on_window_boundary_entries (ctx : AjCtx) (t : Nat) :
    (on_window_boundary ctx t).entries = ctx.entries := by
  simp only [on_window_boundary]; split_ifs <;> rfl

theorem on_window_boundary_cfg (ctx : AjCtx) (t : Nat) :
    (on_window_boundary ctx t).cfg = ctx.cfg := by
  simp only [on_window_boundary]; split_ifs <;> rfl

theorem on_window_boundary_window_start (ctx : AjCtx) (t : Nat) :
    (on_window_boundary ctx t).window_start_ms = ctx.window_start_ms := by
  simp only [on_window_boundary]; split_ifs <;> rfl

theorem on_window_boundary_last_now (ctx : AjCtx) (t : Nat) :
    (on_window_boundary ctx t).last_now_ms = ctx.last_now_ms := by
  simp only [on_window_boundary]; split_ifs <;> rfl

theorem on_window_boundary_ext (ctx : AjCtx) (t : Nat) :
    (on_window_boundary ctx t).ext_jam_recent = ctx.ext_jam_recent := by
  simp only [on_window_boundary]; split_ifs <;> rfl

theorem on_window_boundary_ext_since (ctx : AjCtx) (t : Nat) :
    (on_window_boundary ctx t).ext_jam_since_ms = ctx.ext_jam_since_ms := by
  simp only [on_window_boundary]; split_ifs <;> rfl

theorem on_window_boundary_last_reco (ctx : AjCtx) (t : Nat) :
    (on_window_boundary ctx t).last_reco_ms = ctx.last_reco_ms := by
  simp only [on_window_boundary]; split_ifs <;> rfl

theorem on_window_boundary_last_report (ctx : AjCtx) (t : Nat) :
    (on_window_boundary ctx t).last_report = ctx.last_report := by
  simp only [on_window_boundary]; split_ifs <;> rfl

theorem on_window_boundary_hop_cb (ctx : AjCtx) (t : Nat) :
    (on_window_boundary ctx t).hop_cb = ctx.hop_cb := by
  simp only [on_window_boundary]; split_ifs <;> rfl

theorem on_window_boundary_fired (ctx : AjCtx) (t : Nat) :
    (on_window_boundary ctx t).fired = ctx.fired := by
  simp only [on_window_boundary]; split_ifs <;> rfl

theorem aj_tick_age_ext_cfg (ctx : AjCtx) (t : Nat) :
    (aj_tick_age_ext ctx t).cfg = ctx.cfg := by
  simp only [aj_tick_age_ext]; split_ifs <;> rfl

theorem aj_tick_age_ext_entries (ctx : AjCtx) (t : Nat) :
    (aj_tick_age_ext ctx t).entries = ctx.entries := by
  simp only [aj_tick_age_ext]; split_ifs <;> rfl

theorem aj_tick_age_ext_capacity (ctx : AjCtx) (t : Nat) :
    (aj_tick_age_ext ctx t).capacity = ctx.capacity := by
  simp only [aj_tick_age_ext]; split_ifs <;> rfl

theorem aj_tick_age_ext_head (ctx : AjCtx) (t : Nat) :
    (aj_tick_age_ext ctx t).head = ctx.head := by
  simp only [aj_tick_age_ext]; split_ifs <;> rfl

theorem aj_tick_age_ext_count (ctx : AjCtx) (t : Nat) :
    (aj_tick_age_ext ctx t).count = ctx.count := by
  simp only [aj_tick_age_ext]; split_ifs <;> rfl

theorem aj_tick_age_ext_bad_count (ctx : AjCtx) (t : Nat) :
    (aj_tick_age_ext ctx t).bad_count = ctx.bad_count := by
  simp only [aj_tick_age_ext]; split_ifs <;> rfl

theorem aj_tick_age_ext_window_start (ctx : AjCtx) (t : Nat) :
    (aj_tick_age_ext ctx t).window_start_ms = ctx.window_start_ms := by
  simp only [aj_tick_age_ext]; split_ifs <;> rfl

theorem aj_tick_age_ext_last_now (ctx : AjCtx) (t : Nat) :
    (aj_tick_age_ext ctx t).last_now_ms = ctx.last_now_ms := by
  simp only [aj_tick_age_ext]; split_ifs <;> rfl

theorem prune_old_cfg (ctx : AjCtx) (t : Nat) :
    (prune_old_by_time ctx t).cfg = ctx.cfg := by
  unfold prune_old_by_time; split <;> rfl

theorem prune_old_entries (ctx : AjCtx) (t : Nat) :
    (prune_old_by_time ctx t).entries = ctx.entries := by
  unfold prune_old_by_time; split <;> rfl

theorem prune_old_head (ctx : AjCtx) (t : Nat) :
    (prune_old_by_time ctx t).head = ctx.head := by
  unfold prune_old_by_time; split <;> rfl

theorem prune_old_capacity (ctx : AjCtx) (t : Nat) :
    (prune_old_by_time ctx t).capacity = ctx.capacity := by
  unfold prune_old_by_time; split <;> rfl

theorem prune_old_window_start (ctx : AjCtx) (t : Nat) :
    (prune_old_by_time ctx t).window_start_ms = ctx.window_start_ms := by
  unfold prune_old_by_time; split <;> rfl

theorem prune_old_last_now (ctx : AjCtx) (t : Nat) :
    (prune_old_by_time ctx t).last_now_ms = ctx.last_now_ms := by
  unfold prune_old_by_time; split <;> rfl

theorem prune_old_last_reco (ctx : AjCtx) (t : Nat) :
    (prune_old_by_time ctx t).last_reco_ms = ctx.last_reco_ms := by
  unfold prune_old_by_time; split <;> rfl

theorem prune_old_last_report (ctx : AjCtx) (t : Nat) :
    (prune_old_by_time ctx t).last_report = ctx.last_report := by
  unfold prune_old_by_time; split <;> rfl

theorem prune_old_hop_cb (ctx : AjCtx) (t : Nat) :
    (prune_old_by_time ctx t).hop_cb = ctx.hop_cb := by
  unfold prune_old_by_time; split <;> rfl

theorem prune_old_fired (ctx : AjCtx) (t : Nat) :
    (prune_old_by_time ctx t).fired = ctx.fired := by
  unfold prune_old_by_time; split <;> rfl

theorem update_report_cfg (ctx : AjCtx) (t : Nat) : (update_report ctx t).cfg = ctx.cfg := rfl

theorem update_report_count (ctx : AjCtx) (t : Nat) : (update_report ctx t).count = ctx.count := rfl

theorem update_report_bad_count (ctx : AjCtx) (t : Nat) :
    (update_report ctx t).bad_count = ctx.bad_count := rfl

theorem update_report_head (ctx : AjCtx) (t : Nat) : (update_report ctx t).head = ctx.head := rfl

theorem update_report_capacity (ctx : AjCtx) (t : Nat) :
    (update_report ctx t).capacity = ctx.capacity := rfl

theorem update_report_entries (ctx : AjCtx) (t : Nat) :
    (update_report ctx t).entries = ctx.entries := rfl

theorem update_report_window_start (ctx : AjCtx) (t : Nat) :
    (update_report ctx t).window_start_ms = ctx.window_start_ms := rfl

theorem update_report_last_now (ctx : AjCtx) (t : Nat) :
    (update_report ctx t).last_now_ms = ctx.last_now_ms := rfl

theorem update_report_ext_recent (ctx : AjCtx) (t : Nat) :
    (update_report ctx t).ext_jam_recent = ctx.ext_jam_recent := rfl

theorem update_report_ext_since (ctx : AjCtx) (t : Nat) :
    (update_report ctx t).ext_jam_since_ms = ctx.ext_jam_since_ms := rfl

theorem update_report_last_reco (ctx : AjCtx) (t : Nat) :
    (update_report ctx t).last_reco_ms = ctx.last_reco_ms := rfl

theorem update_report_hop_cb (ctx : AjCtx) (t : Nat) :
    (update_report ctx t).hop_cb = ctx.hop_cb := rfl

theorem update_report_fired (ctx : AjCtx) (t : Nat) : (update_report ctx t).fired = ctx.fired := rfl

theorem aj_tick_window_core_cfg (ctx : AjCtx) (t : Nat) :
    (aj_tick_window_core ctx t).cfg = ctx.cfg := by
  unfold aj_tick_window_core
  split_ifs <;> simp [on_window_boundary_cfg]

theorem aj_tick_window_core_last_now (ctx : AjCtx) (t : Nat) :
    (aj_tick_window_core ctx t).last_now_ms = ctx.last_now_ms := by
  unfold aj_tick_window_core
  split_ifs <;> simp [on_window_boundary_last_now]

theorem aj_tick_window_cfg (ctx : AjCtx) (t : Nat) :
    (aj_tick_window ctx t).cfg = ctx.cfg := by
  unfold aj_tick_window
  split_ifs <;> simp [aj_tick_window_core_cfg, prune_old_cfg]

theorem aj_tick_window_last_now (ctx : AjCtx) (t : Nat) :
    (aj_tick_window ctx t).last_now_ms = ctx.last_now_ms := by
  unfold aj_tick_window
  split_ifs <;> simp [aj_tick_window_core_last_now, prune_old_last_now]

/-- After `aj_tick_window`, in BY_TIME mode the ring is prune-stable and the residual
elapsed time since `window_start_ms` is below one window duration. -/
theorem aj_tick_window_settled (ctx : AjCtx) (t : Nat)
    (hmode : ctx.cfg.window_mode = AjWindowMode.byTime) :
    pruneTailAux (aj_tick_window ctx t).entries (aj_tick_window ctx t).capacity
        (aj_tick_window ctx t).head (aj_cutoff (aj_tick_window ctx t).cfg t)
        (aj_tick_window ctx t).count (aj_tick_window ctx t).bad_count =
      ((aj_tick_window ctx t).count, (aj_tick_window ctx t).bad_count) ∧
    sub32 t (aj_tick_window ctx t).window_start_ms < aj_dur (aj_tick_window ctx t).cfg := by
  have hw : aj_tick_window ctx t = aj_tick_window_core (prune_old_by_time ctx t) t := by
    unfold aj_tick_window; rw [if_pos hmode]
  rw [hw]
  have hPcount : (prune_old_by_time ctx t).count =
      (pruneTailAux ctx.entries ctx.capacity ctx.head (aj_cutoff ctx.cfg t)
        ctx.count ctx.bad_count).1 := by
    unfold prune_old_by_time pruneTail; rw [if_pos hmode]
  have hPbad : (prune_old_by_time ctx t).bad_count =
      (pruneTailAux ctx.entries ctx.capacity ctx.head (aj_cutoff ctx.cfg t)
        ctx.count ctx.bad_count).2 := by
    unfold prune_old_by_time pruneTail; rw [if_pos hmode]
  have hPstable : pruneTailAux (prune_old_by_time ctx t).entries (prune_old_by_time ctx t).capacity
      (prune_old_by_time ctx t).head (aj_cutoff (prune_old_by_time ctx t).cfg t)
      (prune_old_by_time ctx t).count (prune_old_by_time ctx t).bad_count =
      ((prune_old_by_time ctx t).count, (prune_old_by_time ctx t).bad_count) := by
    rw [prune_old_entries, prune_old_capacity, prune_old_head, prune_old_cfg, hPcount, hPbad]
    exact pruneTailAux_idem _ _ _ _ _ _
  unfold aj_tick_window_core
  by_cases hb : aj_dur (prune_old_by_time ctx t).cfg ≤
      sub32 t (prune_old_by_time ctx t).window_start_ms
  · rw [if_pos hb]
    have hsteps : ¬ sub32 t (prune_old_by_time ctx t).window_start_ms /
        aj_dur (prune_old_by_time ctx t).cfg = 0 := by
      have h1 := (Nat.one_le_div_iff (aj_dur_pos (prune_old_by_time ctx t).cfg)).mpr hb
      omega
    rw [if_neg hsteps]
    constructor
    · rw [on_window_boundary_entries, on_window_boundary_capacity, on_window_boundary_head,
        on_window_boundary_cfg, on_window_boundary_count, on_window_boundary_bad_count]
      exact hPstable
    · rw [on_window_boundary_window_start, on_window_boundary_cfg]
      exact sub32_window_advance t (prune_old_by_time ctx t).window_start_ms
        (aj_dur (prune_old_by_time ctx t).cfg) (aj_dur_pos _) hb
  · rw [if_neg hb]
    exact ⟨hPstable, by omega⟩

/-- `aj_tick_window` is the identity on a settled context. -/
theorem aj_tick_window_id (ctx : AjCtx) (t : Nat)
    (h : ctx.cfg.window_mode = AjWindowMode.byTime →
      pruneTailAux ctx.entries ctx.capacity ctx.head (aj_cutoff ctx.cfg t)
          ctx.count ctx.bad_count = (ctx.count, ctx.bad_count) ∧
        sub32 t ctx.window_start_ms < aj_dur ctx.cfg) :
    aj_tick_window ctx t = ctx := by
  unfold aj_tick_window
  by_cases hmode : ctx.cfg.window_mode = AjWindowMode.byTime
  · obtain ⟨hring, hws⟩ := h hmode
    have hp : prune_old_by_time ctx t = ctx := by
      unfold prune_old_by_time pruneTail
      rw [if_pos hmode]
      simp only [hring]
    rw [if_pos hmode, hp]
    unfold aj_tick_window_core
    rw [if_neg (by omega)]
  · rw [if_neg hmode]

/-- After `aj_tick_age_ext`, a still-set external-jam flag is younger than the age-out
limit. -/
theorem aj_tick_age_ext_settled (ctx : AjCtx) (t : Nat)
    (h : (aj_tick_age_ext ctx t).ext_jam_recent = true) :
    sub32 t (aj_tick_age_ext ctx t).ext_jam_since_ms < aj_ext_limit (aj_tick_age_ext ctx t).cfg := by
  by_cases h1 : ctx.ext_jam_recent = true
  · by_cases h2 : aj_ext_limit ctx.cfg ≤ sub32 t ctx.ext_jam_since_ms
    · exfalso
      simp [aj_tick_age_ext, h1, h2] at h
    · simp only [aj_tick_age_ext, if_pos h1, if_neg h2]
      omega
  · exfalso
    simp only [aj_tick_age_ext, if_neg h1] at h
    exact h1 h

/-- `aj_tick_age_ext` is the identity on a settled context. -/
theorem aj_tick_age_ext_id (ctx : AjCtx) (t : Nat)
    (h : ctx.ext_jam_recent = true → sub32 t ctx.ext_jam_since_ms < aj_ext_limit ctx.cfg) :
    aj_tick_age_ext ctx t = ctx := by
  by_cases h1 : ctx.ext_jam_recent = true
  · simp only [aj_tick_age_ext, if_pos h1]
    rw [if_neg (by have := h h1; omega)]
  · simp only [aj_tick_age_ext, if_neg h1]

/-- Recomputing the report at the same instant does not change anything. -/
theorem update_report_idem (ctx : AjCtx) (t : Nat) :
    update_report (update_report ctx t) t = update_report ctx t := rfl

/-- Helper for C7: ticking again from the settled post-tick context is the identity. -/
theorem aj_tick_fixpoint (ctx0 : AjCtx) (t : Nat) (h0 : ctx0.last_now_ms = t) :
    aj_tick (update_report (aj_tick_age_ext (aj_tick_window ctx0 t) t) t) t =
      update_report (aj_tick_age_ext (aj_tick_window ctx0 t) t) t := by
  set W := aj_tick_window ctx0 t with hW
  set A := aj_tick_age_ext W t with hA
  set R := update_report A t with hR
  have hRlast : R.last_now_ms = t := by
    rw [hR, update_report_last_now, hA, aj_tick_age_ext_last_now, hW, aj_tick_window_last_now, h0]
  show update_report (aj_tick_age_ext (aj_tick_window { R with last_now_ms := t } t) t) t = R
  have heta : { R with last_now_ms := t } = R := by rw [← hRlast]
  rw [heta]
  have hcfgRW : R.cfg = W.cfg := by rw [hR, update_report_cfg, hA, aj_tick_age_ext_cfg]
  have hentRW : R.entries = W.entries := by
    rw [hR, update_report_entries, hA, aj_tick_age_ext_entries]
  have hcapRW : R.capacity = W.capacity := by
    rw [hR, update_report_capacity, hA, aj_tick_age_ext_capacity]
  have hheadRW : R.head = W.head := by rw [hR, update_report_head, hA, aj_tick_age_ext_head]
  have hcountRW : R.count = W.count := by rw [hR, update_report_count, hA, aj_tick_age_ext_count]
  have hbadRW : R.bad_count = W.bad_count := by
    rw [hR, update_report_bad_count, hA, aj_tick_age_ext_bad_count]
  have hwsRW : R.window_start_ms = W.window_start_ms := by
    rw [hR, update_report_window_start, hA, aj_tick_age_ext_window_start]
  have hwid : aj_tick_window R t = R := by
    apply aj_tick_window_id
    intro hmode
    have hmode0 : ctx0.cfg.window_mode = AjWindowMode.byTime := by
      have hWcfg : W.cfg = ctx0.cfg := by rw [hW, aj_tick_window_cfg]
      rw [hcfgRW, hWcfg] at hmode
      exact hmode
    have hs := aj_tick_window_settled ctx0 t hmode0
    rw [← hW] at hs
    rw [hcfgRW, hentRW, hcapRW, hheadRW, hcountRW, hbadRW, hwsRW]
    exact hs
  rw [hwid]
  have haid : aj_tick_age_ext R t = R := by
    apply aj_tick_age_ext_id
    intro hext
    have hextA : A.ext_jam_recent = true := by
      rw [hR, update_report_ext_recent] at hext
      exact hext
    rw [hA] at hextA
    have hs := aj_tick_age_ext_settled W t hextA
    rw [← hA] at hs
    have h1 : R.ext_jam_since_ms = A.ext_jam_since_ms := by rw [hR, update_report_ext_since]
    have h2 : R.cfg = A.cfg := by rw [hR, update_report_cfg]
    rw [h1, h2]
    exact hs
  rw [haid, hR]
  exact update_report_idem A t

/-- C7: `aj_tick` is idempotent at a fixed timestamp — ticking twice with the same `t`
leaves the context (and hence its report) exactly as after the first tick. -/
theorem aj_tick_idempotent (ctx : AjCtx) (t : Nat) :
    aj_tick (aj_tick ctx t) t = aj_tick ctx t :=
  aj_tick_fixpoint { ctx with last_now_ms := t } t rfl

/-- Reduction of `x % cap` when `x < 2 * cap`. -/
theorem mod2 (x cap : Nat) (h : x < 2 * cap) : x % cap = if x < cap then x else x - cap := by
  split_ifs with h1
  · exact Nat.mod_eq_of_lt h1
  · rw [Nat.mod_eq_sub_mod (by omega)]
    exact Nat.mod_eq_of_lt (by omega)

/-- The newest slot seen from the advanced head is the old insert position. -/
theorem ring_idx_zero (cap head : Nat) (hh : head < cap) :
    ((head + 1) % cap + cap - 1) % cap = head := by
  by_cases h1 : head + 1 < cap
  · rw [Nat.mod_eq_of_lt h1]
    have h2 : head + 1 + cap - 1 = cap + head := by omega
    rw [h2, Nat.add_mod_left]
    exact Nat.mod_eq_of_lt hh
  · have hc : head + 1 = cap := by omega
    rw [hc, Nat.mod_self]
    have h2 : 0 + cap - 1 = head := by omega
    rw [h2]
    exact Nat.mod_eq_of_lt hh

/-- Slot `k + 1` behind the advanced head is slot `k` behind the old head. -/
theorem ring_idx_shift (cap head k : Nat) (hh : head < cap) (hk : k < cap) :
    ((head + 1) % cap + cap - (k + 1)) % cap = (head + cap - k) % cap := by
  by_cases h1 : head + 1 < cap
  · rw [Nat.mod_eq_of_lt h1]
    have h2 : head + 1 + cap - (k + 1) = head + cap - k := by omega
    rw [h2]
  · have hc : head + 1 = cap := by omega
    rw [hc, Nat.mod_self]
    have h2 : 0 + cap - (k + 1) = cap - 1 - k := by omega
    have h3 : head + cap - k = cap + (cap - 1 - k) := by omega
    rw [h2, h3, Nat.add_mod_left]

/-- A strictly shallower slot than the full ring depth is never the insert position. -/
theorem ring_idx_ne_head (cap head k : Nat) (hh : head < cap) (hk : k + 1 < cap) :
    (head + cap - (k + 1)) % cap ≠ head := by
  rw [mod2 _ _ (by omega)]
  split_ifs <;> omega

/-- Inserting a fresh entry at `head` and advancing the head prepends its badness to the
count over the previous `m` valid slots. -/
theorem countBad_insert (e : Nat → AjPktEntry) (x : AjPktEntry) (cap head m : Nat)
    (hh : head < cap) (hm : m < cap) :
    countBad (fun i => if i = head then x else e i) cap ((head + 1) % cap) (m + 1) =
      (if x.good = false then 1 else 0) + countBad e cap head m := by
  induction m with
  | zero =>
    simp only [countBad, Nat.zero_add, Nat.add_zero]
    rw [ring_idx_zero cap head hh]
    simp
  | succ m ih =>
    have hm' : m < cap := by omega
    have hA : ((head + 1) % cap + cap - (m + 1 + 1)) % cap = (head + cap - (m + 1)) % cap :=
      ring_idx_shift cap head (m + 1) hh hm
    have hne : (head + cap - (m + 1)) % cap ≠ head := ring_idx_ne_head cap head m hh hm
    calc countBad (fun i => if i = head then x else e i) cap ((head + 1) % cap) (m + 1 + 1)
        = (if ((fun i => if i = head then x else e i)
              (((head + 1) % cap + cap - (m + 1 + 1)) % cap)).good = false then 1 else 0) +
            countBad (fun i => if i = head then x else e i) cap ((head + 1) % cap) (m + 1) := rfl
      _ = (if (e ((head + cap - (m + 1)) % cap)).good = false then 1 else 0) +
            ((if x.good = false then 1 else 0) + countBad e cap head m) := by
          rw [hA, ih hm']
          simp [hne]
      _ = (if x.good = false then 1 else 0) + countBad e cap head (m + 1) := by
          simp only [countBad]
          omega

/-- On a full ring the oldest valid slot is the insert position itself. -/
theorem countBad_full (e : Nat → AjPktEntry) (cap head : Nat) (hh : head < cap) :
    countBad e cap head cap =
      (if (e head).good = false then 1 else 0) + countBad e cap head (cap - 1) := by
  obtain ⟨c, rfl⟩ : ∃ c, cap = c + 1 := ⟨cap - 1, by omega⟩
  simp only [countBad, Nat.add_sub_cancel]
  rw [Nat.mod_eq_of_lt hh]

/-- The prune loop keeps `bad_count` equal to the literal bad count over the remaining
entries, and never grows the ring. -/
theorem pruneTailAux_countBad (e : Nat → AjPktEntry) (cap head cutoff : Nat) :
    ∀ c bad, bad = countBad e cap head c →
      (pruneTailAux e cap head cutoff c bad).2 =
          countBad e cap head (pruneTailAux e cap head cutoff c bad).1 ∧
        (pruneTailAux e cap head cutoff c bad).1 ≤ c := by
  intro c
  induction c with
  | zero =>
    intro bad h
    simp only [pruneTailAux]
    exact ⟨h, Nat.le_refl 0⟩
  | succ c ih =>
    intro bad h
    by_cases hstop : cutoff ≤ (e ((head + cap - (c + 1)) % cap)).ts
    · simp only [pruneTailAux, if_pos hstop]
      exact ⟨h, Nat.le_refl _⟩
    · simp only [pruneTailAux, if_neg hstop]
      have hstep : (if (e ((head + cap - (c + 1)) % cap)).good = false ∧ 0 < bad
          then bad - 1 else bad) = countBad e cap head c := by
        simp only [countBad] at h
        by_cases hg : (e ((head + cap - (c + 1)) % cap)).good = false
        · rw [if_pos hg] at h
          rw [if_pos ⟨hg, by omega⟩]
          omega
        · rw [if_neg hg] at h
          rw [if_neg (by intro hx; exact hg hx.1)]
          omega
      obtain ⟨h1, h2⟩ := ih _ hstep
      exact ⟨h1, Nat.le_trans h2 (Nat.le_succ c)⟩

/-- `RingInv` transfers along equal ring fields. -/
theorem RingInv_of_fields (c c' : AjCtx) (h : RingInv c)
    (he : c'.entries = c.entries) (hcap : c'.capacity = c.capacity) (hh : c'.head = c.head)
    (hc : c'.count = c.count) (hb : c'.bad_count = c.bad_count) : RingInv c' := by
  unfold RingInv at h ⊢
  rw [he, hcap, hh, hc, hb]
  exact h

/-- Ring fields untouched by `maybe_fire_hop_callback`. -/
theorem maybe_fire_ring (ctx : AjCtx) (t : Nat) :
    (maybe_fire_hop_callback ctx t).entries = ctx.entries ∧
      (maybe_fire_hop_callback ctx t).capacity = ctx.capacity ∧
      (maybe_fire_hop_callback ctx t).head = ctx.head ∧
      (maybe_fire_hop_callback ctx t).count = ctx.count ∧
      (maybe_fire_hop_callback ctx t).bad_count = ctx.bad_count := by
  unfold maybe_fire_hop_callback
  split_ifs <;> exact ⟨rfl, rfl, rfl, rfl, rfl⟩

/-- `prune_old_by_time` preserves the ring invariant. -/
theorem prune_old_inv (ctx : AjCtx) (t : Nat) (h : RingInv ctx) :
    RingInv (prune_old_by_time ctx t) := by
  obtain ⟨hbad, hcount, hhead⟩ := h
  unfold prune_old_by_time
  split_ifs with hmode
  · obtain ⟨h1, h2⟩ := pruneTailAux_countBad ctx.entries ctx.capacity ctx.head
      (aj_cutoff ctx.cfg t) ctx.count ctx.bad_count hbad
    exact ⟨h1, by simpa using Nat.le_trans h2 hcount, hhead⟩
  · exact ⟨hbad, hcount, hhead⟩

/-- `aj_insert_step` preserves the ring invariant. -/
theorem aj_insert_step_inv (ctx : AjCtx) (good : Bool) (t : Nat) (h : RingInv ctx) :
    RingInv (aj_insert_step ctx good t) := by
  obtain ⟨hbad, hcount, hhead⟩ := h
  have hcap : 0 < ctx.capacity := by omega
  unfold aj_insert_step
  by_cases hfull : ctx.count = ctx.capacity
  · rw [if_pos hfull]
    have hfullBad : ctx.bad_count =
        (if (ctx.entries ctx.head).good = false then 1 else 0) +
          countBad ctx.entries ctx.capacity ctx.head (ctx.capacity - 1) := by
      rw [hbad, hfull]
      exact countBad_full ctx.entries ctx.capacity ctx.head hhead
    have hm : ctx.capacity - 1 < ctx.capacity := by omega
    have hc1 : ctx.capacity - 1 + 1 = ctx.capacity := by omega
    have hins := countBad_insert ctx.entries { good := good, ts := t }
      ctx.capacity ctx.head (ctx.capacity - 1) hhead hm
    rw [hc1] at hins
    by_cases hg : (ctx.entries ctx.head).good = false ∧ 0 < ctx.bad_count
    · rw [if_pos hg]
      refine ⟨?_, by simpa using hcount, by simpa using Nat.mod_lt _ hcap⟩
      show (if good = false then ctx.bad_count - 1 + 1 else ctx.bad_count - 1) =
        countBad (fun i => if i = ctx.head then { good := good, ts := t } else ctx.entries i)
          ctx.capacity ((ctx.head + 1) % ctx.capacity) ctx.count
      rw [hfull, hins]
      rw [if_pos hg.1] at hfullBad
      cases good <;> simp <;> omega
    · rw [if_neg hg]
      refine ⟨?_, by simpa using hcount, by simpa using Nat.mod_lt _ hcap⟩
      show (if good = false then ctx.bad_count + 1 else ctx.bad_count) =
        countBad (fun i => if i = ctx.head then { good := good, ts := t } else ctx.entries i)
          ctx.capacity ((ctx.head + 1) % ctx.capacity) ctx.count
      rw [hfull, hins]
      have hgood : (ctx.entries ctx.head).good ≠ false := by
        intro hx
        have h1 : 0 < ctx.bad_count := by rw [hfullBad, if_pos hx]; omega
        exact hg ⟨hx, h1⟩
      rw [if_neg hgood] at hfullBad
      cases good <;> simp <;> omega
  · rw [if_neg hfull]
    have hm : ctx.count < ctx.capacity := by omega
    refine ⟨?_, by simpa using hm, by simpa using Nat.mod_lt _ hcap⟩
    show (if good = false then ctx.bad_count + 1 else ctx.bad_count) =
      countBad (fun i => if i = ctx.head then { good := good, ts := t } else ctx.entries i)
        ctx.capacity ((ctx.head + 1) % ctx.capacity) (ctx.count + 1)
    have hins := countBad_insert ctx.entries { good := good, ts := t }
      ctx.capacity ctx.head ctx.count hhead hm
    rw [hins, ← hbad]
    cases good <;> simp <;> omega

/-- `on_window_boundary` preserves the ring invariant. -/
theorem on_window_boundary_inv (ctx : AjCtx) (t : Nat) (h : RingInv ctx) :
    RingInv (on_window_boundary ctx t) :=
  RingInv_of_fields ctx _ h (on_window_boundary_entries ctx t)
    (on_window_boundary_capacity ctx t) (on_window_boundary_head ctx t)
    (on_window_boundary_count ctx t) (on_window_boundary_bad_count ctx t)

/-- `aj_boundary_step` preserves the ring invariant. -/
theorem aj_boundary_step_inv (ctx : AjCtx) (t : Nat) (h : RingInv ctx) :
    RingInv (aj_boundary_step ctx t) := by
  unfold aj_boundary_step
  split_ifs <;> first | exact on_window_boundary_inv ctx t h | exact h

/-- `update_report` preserves the ring invariant. -/
theorem update_report_inv (ctx : AjCtx) (t : Nat) (h : RingInv ctx) :
    RingInv (update_report ctx t) :=
  RingInv_of_fields ctx _ h rfl rfl rfl rfl rfl

/-- `maybe_fire_hop_callback` preserves the ring invariant. -/
theorem maybe_fire_inv (ctx : AjCtx) (t : Nat) (h : RingInv ctx) :
    RingInv (maybe_fire_hop_callback ctx t) := by
  obtain ⟨h1, h2, h3, h4, h5⟩ := maybe_fire_ring ctx t
  exact RingInv_of_fields ctx _ h h1 h2 h3 h4 h5

/-- `aj_register_packet` preserves the ring invariant. -/
theorem aj_register_packet_inv (ctx : AjCtx) (good : Bool) (t : Nat) (h : RingInv ctx) :
    RingInv (aj_register_packet ctx good t) := by
  unfold aj_register_packet
  apply maybe_fire_inv
  apply update_report_inv
  apply aj_boundary_step_inv
  apply aj_insert_step_inv
  apply prune_old_inv
  exact RingInv_of_fields ctx _ h rfl rfl rfl rfl rfl

/-- `aj_register_external_jam` preserves the ring invariant. -/
theorem aj_register_external_jam_inv (ctx : AjCtx) (t : Nat) (h : RingInv ctx) :
    RingInv (aj_register_external_jam ctx t) := by
  unfold aj_register_external_jam
  apply maybe_fire_inv
  apply update_report_inv
  apply prune_old_inv
  exact RingInv_of_fields ctx _ h rfl rfl rfl rfl rfl

/-- `aj_tick_window_core` preserves the ring invariant. -/
theorem aj_tick_window_core_inv (ctx : AjCtx) (t : Nat) (h : RingInv ctx) :
    RingInv (aj_tick_window_core ctx t) := by
  unfold aj_tick_window_core
  by_cases hb : aj_dur ctx.cfg ≤ sub32 t ctx.window_start_ms
  · rw [if_pos hb]
    exact on_window_boundary_inv _ t h
  · rw [if_neg hb]
    exact h

/-- `aj_tick` preserves the ring invariant. -/
theorem aj_tick_inv (ctx : AjCtx) (t : Nat) (h : RingInv ctx) : RingInv (aj_tick ctx t) := by
  unfold aj_tick aj_tick_window
  apply update_report_inv
  have h0 : RingInv { ctx with last_now_ms := t } :=
    RingInv_of_fields ctx _ h rfl rfl rfl rfl rfl
  have h1 : RingInv (if ({ ctx with last_now_ms := t } : AjCtx).cfg.window_mode = AjWindowMode.byTime
      then aj_tick_window_core (prune_old_by_time { ctx with last_now_ms := t } t) t
      else { ctx with last_now_ms := t }) := by
    split_ifs
    · exact aj_tick_window_core_inv _ t (prune_old_inv _ t h0)
    · exact h0
  obtain ⟨hb1, hb2, hb3⟩ := h1
  refine RingInv_of_fields _ _ ⟨hb1, hb2, hb3⟩ ?_ ?_ ?_ ?_ ?_ <;>
    first
      | exact aj_tick_age_ext_entries _ t
      | exact aj_tick_age_ext_capacity _ t
      | exact aj_tick_age_ext_head _ t
      | exact aj_tick_age_ext_count _ t
      | exact aj_tick_age_ext_bad_count _ t

/-- `aj_reset` preserves the ring invariant. -/
theorem aj_reset_inv (ctx : AjCtx) (h : RingInv ctx) : RingInv (aj_reset ctx) := by
  obtain ⟨_, _, hhead⟩ := h
  exact ⟨rfl, by simp [aj_reset], by simp [aj_reset]; omega⟩

/-- `aj_configure` preserves the ring invariant. -/
theorem aj_configure_inv (ctx : AjCtx) (cfg : AjConfig) (h : RingInv ctx) :
    RingInv (aj_configure ctx cfg) := by
  obtain ⟨hbad, hcount, hhead⟩ := h
  simp only [aj_configure, aj_internal_apply_cfg]
  split_ifs with h1 h2
  · exact ⟨rfl, by simp, Nat.one_pos⟩
  · refine RingInv_of_fields ctx _ ⟨hbad, hcount, hhead⟩ rfl ?_ rfl rfl rfl
    show (1 : Nat) = ctx.capacity
    omega
  · refine ⟨rfl, by simp, ?_⟩
    show 0 < cfg.window_size_packets
    omega
  · refine RingInv_of_fields ctx _ ⟨hbad, hcount, hhead⟩ rfl ?_ rfl rfl rfl
    show cfg.window_size_packets = ctx.capacity
    omega

/-- `aj_init` establishes the ring invariant. -/
theorem aj_init_inv (cfg : AjConfig) : RingInv (aj_init cfg) := by
  unfold aj_init aj_internal_apply_cfg
  refine ⟨rfl, by simp, ?_⟩
  show 0 < (if cfg.window_size_packets = 0 then 1 else cfg.window_size_packets)
  split_ifs <;> omega

/-- Every call preserves the ring invariant. -/
theorem aj_apply_inv (ctx : AjCtx) (op : AjOp) (h : RingInv ctx) : RingInv (aj_apply ctx op) := by
  cases op with
  | registerPacket good t => exact aj_register_packet_inv ctx good t h
  | registerExternalJam t => exact aj_register_external_jam_inv ctx t h
  | tick t => exact aj_tick_inv ctx t h
  | reset => exact aj_reset_inv ctx h
  | configure cfg => exact aj_configure_inv ctx cfg h

/-- Any call sequence preserves the ring invariant. -/
theorem aj_run_inv (ops : List AjOp) : ∀ ctx : AjCtx, RingInv ctx → RingInv (aj_run ctx ops) := by
  induction ops with
  | nil => intro ctx h; exact h
  | cons op ops ih => intro ctx h; exact ih _ (aj_apply_inv ctx op h)

/-- C2: after any sequence of `aj_register_packet` / `aj_register_external_jam` /
`aj_tick` / `aj_reset` / `aj_configure` calls on an initialised context, `bad_count`
equals the literal number of ring entries whose good flag is cleared, and the entry count
never exceeds the capacity. -/
theorem aj_bad_count_ring_invariant (cfg : AjConfig) (ops : List AjOp) :
    (aj_run (aj_init cfg) ops).bad_count =
      countBad (aj_run (aj_init cfg) ops).entries (aj_run (aj_init cfg) ops).capacity
        (aj_run (aj_init cfg) ops).head (aj_run (aj_init cfg) ops).count ∧
      (aj_run (aj_init cfg) ops).count ≤ (aj_run (aj_init cfg) ops).capacity := by
  obtain ⟨h1, h2, h3⟩ := aj_run_inv ops (aj_init cfg) (aj_init_inv cfg)
  exact ⟨h1, h2⟩

/-- A paced wrap-around distance bounds the plain distance from below. -/
theorem sub32_spacing (t r M : Nat) (hrt : r ≤ t) (hM : M < 4294967296)
    (h : M ≤ sub32 t r) : r + M ≤ t := by
  unfold sub32 at h
  omega

/-- A true `recommend_hop` in a fresh report certifies the pacing guard. -/
theorem update_report_recommend_le (ctx : AjCtx) (t : Nat)
    (h : (update_report ctx t).last_report.recommend_hop = true) :
    ctx.cfg.min_time_between_reco_ms ≤ sub32 t ctx.last_reco_ms := by
  by_cases hc : ctx.cfg.min_time_between_reco_ms ≤ sub32 t ctx.last_reco_ms
  · exact hc
  · simp only [update_report] at h
    rw [if_neg hc] at h
    exact absurd h (by simp)

theorem aj_insert_step_cfg (ctx : AjCtx) (good : Bool) (t : Nat) :
    (aj_insert_step ctx good t).cfg = ctx.cfg := by
  simp only [aj_insert_step]
  split_ifs <;> rfl

theorem aj_insert_step_last_reco (ctx : AjCtx) (good : Bool) (t : Nat) :
    (aj_insert_step ctx good t).last_reco_ms = ctx.last_reco_ms := by
  simp only [aj_insert_step]
  split_ifs <;> rfl

theorem aj_insert_step_fired (ctx : AjCtx) (good : Bool) (t : Nat) :
    (aj_insert_step ctx good t).fired = ctx.fired := by
  simp only [aj_insert_step]
  split_ifs <;> rfl

theorem aj_insert_step_hop_cb (ctx : AjCtx) (good : Bool) (t : Nat) :
    (aj_insert_step ctx good t).hop_cb = ctx.hop_cb := by
  simp only [aj_insert_step]
  split_ifs <;> rfl

theorem aj_boundary_step_cfg (ctx : AjCtx) (t : Nat) :
    (aj_boundary_step ctx t).cfg = ctx.cfg := by
  unfold aj_boundary_step
  split_ifs <;> simp [on_window_boundary_cfg]

theorem aj_boundary_step_last_reco (ctx : AjCtx) (t : Nat) :
    (aj_boundary_step ctx t).last_reco_ms = ctx.last_reco_ms := by
  unfold aj_boundary_step
  split_ifs <;> simp [on_window_boundary_last_reco]

theorem aj_boundary_step_fired (ctx : AjCtx) (t : Nat) :
    (aj_boundary_step ctx t).fired = ctx.fired := by
  unfold aj_boundary_step
  split_ifs <;> simp [on_window_boundary_fired]

theorem aj_boundary_step_hop_cb (ctx : AjCtx) (t : Nat) :
    (aj_boundary_step ctx t).hop_cb = ctx.hop_cb := by
  unfold aj_boundary_step
  split_ifs <;> simp [on_window_boundary_hop_cb]

/-- What one report-plus-callback step can do to the firing log: either nothing, or log
one fire at `t` — and in the latter case the pacing guard held against the previous
`last_reco_ms`. -/
theorem fire_step_spec (ctx Y : AjCtx) (t : Nat)
    (hcfg : Y.cfg = ctx.cfg) (hlr : Y.last_reco_ms = ctx.last_reco_ms)
    (hfired : Y.fired = ctx.fired) (hcb : Y.hop_cb = ctx.hop_cb) :
    (maybe_fire_hop_callback (update_report Y t) t).cfg = ctx.cfg ∧
      (maybe_fire_hop_callback (update_report Y t) t).hop_cb = ctx.hop_cb ∧
      ((maybe_fire_hop_callback (update_report Y t) t).fired = ctx.fired ∧
          (maybe_fire_hop_callback (update_report Y t) t).last_reco_ms = ctx.last_reco_ms ∨
        ∃ s, (maybe_fire_hop_callback (update_report Y t) t).fired = (t, s) :: ctx.fired ∧
          (maybe_fire_hop_callback (update_report Y t) t).last_reco_ms = t ∧
          ctx.cfg.min_time_between_reco_ms ≤ sub32 t ctx.last_reco_ms) := by
  unfold maybe_fire_hop_callback
  by_cases h1 : (update_report Y t).hop_cb = false
  · rw [if_pos h1]
    exact ⟨hcfg, hcb, Or.inl ⟨hfired, hlr⟩⟩
  · rw [if_neg h1]
    by_cases h2 : (update_report Y t).last_report.recommend_hop = false
    · rw [if_pos h2]
      exact ⟨hcfg, hcb, Or.inl ⟨hfired, hlr⟩⟩
    · rw [if_neg h2]
      refine ⟨hcfg, hcb, Or.inr ⟨fire_suggestion (update_report Y t), ?_, rfl, ?_⟩⟩
      · exact congrArg (List.cons _) (by rw [update_report_fired, hfired])
      · have hrec : (update_report Y t).last_report.recommend_hop = true := by
          cases hx : (update_report Y t).last_report.recommend_hop
          · exact absurd hx h2
          · rfl
        have h3 := update_report_recommend_le Y t hrec
        rw [hcfg, hlr] at h3
        exact h3

/-- Firing behaviour of `aj_register_packet`. -/
theorem aj_register_packet_fire_spec (ctx : AjCtx) (good : Bool) (t : Nat) :
    (aj_register_packet ctx good t).cfg = ctx.cfg ∧
      (aj_register_packet ctx good t).hop_cb = ctx.hop_cb ∧
      ((aj_register_packet ctx good t).fired = ctx.fired ∧
          (aj_register_packet ctx good t).last_reco_ms = ctx.last_reco_ms ∨
        ∃ s, (aj_register_packet ctx good t).fired = (t, s) :: ctx.fired ∧
          (aj_register_packet ctx good t).last_reco_ms = t ∧
          ctx.cfg.min_time_between_reco_ms ≤ sub32 t ctx.last_reco_ms) := by
  unfold aj_register_packet
  apply fire_step_spec
  · rw [aj_boundary_step_cfg, aj_insert_step_cfg, prune_old_cfg]
  · rw [aj_boundary_step_last_reco, aj_insert_step_last_reco, prune_old_last_reco]
  · rw [aj_boundary_step_fired, aj_insert_step_fired, prune_old_fired]
  · rw [aj_boundary_step_hop_cb, aj_insert_step_hop_cb, prune_old_hop_cb]

/-- Firing behaviour of `aj_register_external_jam`. -/
theorem aj_register_external_jam_fire_spec (ctx : AjCtx) (t : Nat) :
    (aj_register_external_jam ctx t).cfg = ctx.cfg ∧
      (aj_register_external_jam ctx t).hop_cb = ctx.hop_cb ∧
      ((aj_register_external_jam ctx t).fired = ctx.fired ∧
          (aj_register_external_jam ctx t).last_reco_ms = ctx.last_reco_ms ∨
        ∃ s, (aj_register_external_jam ctx t).fired = (t, s) :: ctx.fired ∧
          (aj_register_external_jam ctx t).last_reco_ms = t ∧
          ctx.cfg.min_time_between_reco_ms ≤ sub32 t ctx.last_reco_ms) := by
  unfold aj_register_external_jam
  apply fire_step_spec
  · rw [prune_old_cfg]
  · rw [prune_old_last_reco]
  · rw [prune_old_fired]
  · rw [prune_old_hop_cb]

/-- Core induction for C3: running register calls with non-decreasing timestamps keeps
the firing log `M`-spaced, provided the newest logged fire (if any) is the current
`last_reco_ms` and is not in the future. -/
theorem aj_run_fired_chain (M : Nat) (hM : M < 4294967296) :
    ∀ (ops : List AjOp) (lo : Nat) (ctx : AjCtx), RegSeq lo ops →
      ctx.cfg.min_time_between_reco_ms = M →
      List.Chain' (fun a b => b.1 + M ≤ a.1) ctx.fired →
      (∀ p : Nat × AjHopSuggestion, ctx.fired.head? = some p →
        p.1 = ctx.last_reco_ms ∧ ctx.last_reco_ms ≤ lo) →
      List.Chain' (fun a b => b.1 + M ≤ a.1) (aj_run ctx ops).fired := by
  intro ops
  induction ops with
  | nil =>
    intro lo ctx _ _ hchain _
    exact hchain
  | cons op rest ih =>
    intro lo ctx hseq hcfg hchain hhead
    cases hseq with
    | pkt _ t good _ hle hseq' =>
      obtain ⟨hZcfg, _, hZ⟩ := aj_register_packet_fire_spec ctx good t
      show List.Chain' _ (aj_run (aj_register_packet ctx good t) rest).fired
      rcases hZ with ⟨hf, hr⟩ | ⟨s, hf, hr, hpace⟩
      · exact ih t _ hseq' (by rw [hZcfg]; exact hcfg) (by rw [hf]; exact hchain)
          (by intro p hp
              rw [hf] at hp
              rw [hr]
              obtain ⟨h1, h2⟩ := hhead p hp
              exact ⟨h1, by omega⟩)
      · refine ih t _ hseq' (by rw [hZcfg]; exact hcfg) ?_ ?_
        · rw [hf]
          rw [List.chain'_cons']
          refine ⟨?_, hchain⟩
          intro b hb
          obtain ⟨h1, h2⟩ := hhead b (by simpa using hb)
          have h3 : ctx.last_reco_ms + M ≤ t :=
            sub32_spacing t ctx.last_reco_ms M (by omega) hM (by rw [← hcfg]; exact hpace)
          omega
        · intro p hp
          rw [hf] at hp
          simp only [List.head?_cons, Option.some.injEq] at hp
          rw [hr, ← hp]
          exact ⟨rfl, Nat.le_refl t⟩
    | extj _ t _ hle hseq' =>
      obtain ⟨hZcfg, _, hZ⟩ := aj_register_external_jam_fire_spec ctx t
      show List.Chain' _ (aj_run (aj_register_external_jam ctx t) rest).fired
      rcases hZ with ⟨hf, hr⟩ | ⟨s, hf, hr, hpace⟩
      · exact ih t _ hseq' (by rw [hZcfg]; exact hcfg) (by rw [hf]; exact hchain)
          (by intro p hp
              rw [hf] at hp
              rw [hr]
              obtain ⟨h1, h2⟩ := hhead p hp
              exact ⟨h1, by omega⟩)
      · refine ih t _ hseq' (by rw [hZcfg]; exact hcfg) ?_ ?_
        · rw [hf]
          rw [List.chain'_cons']
          refine ⟨?_, hchain⟩
          intro b hb
          obtain ⟨h1, h2⟩ := hhead b (by simpa using hb)
          have h3 : ctx.last_reco_ms + M ≤ t :=
            sub32_spacing t ctx.last_reco_ms M (by omega) hM (by rw [← hcfg]; exact hpace)
          omega
        · intro p hp
          rw [hf] at hp
          simp only [List.head?_cons, Option.some.injEq] at hp
          rw [hr, ← hp]
          exact ⟨rfl, Nat.le_refl t⟩

/-- C3: on a context with a registered hop callback, over any sequence of
`aj_register_packet` / `aj_register_external_jam` calls with non-decreasing timestamps,
any two consecutive callback firings are at least the effective
`min_time_between_reco_ms` apart. -/
theorem aj_hop_reco_rate_limit (ctx : AjCtx) (ops : List AjOp) (lo : Nat)
    (hcb : ctx.hop_cb = true) (hfired : ctx.fired = [])
    (hM : ctx.cfg.min_time_between_reco_ms < 4294967296) (hseq : RegSeq lo ops) :
    List.Chain' (fun a b => b.1 + ctx.cfg.min_time_between_reco_ms ≤ a.1)
      (aj_run ctx ops).fired := by
  apply aj_run_fired_chain ctx.cfg.min_time_between_reco_ms hM ops lo ctx hseq rfl
  · rw [hfired]
    exact List.chain'_nil
  · intro p hp
    rw [hfired] at hp
    simp at hp

/-- Witness for C3 at a concrete input. -/
theorem aj_hop_reco_rate_limit_witness :
    c4ctx.hop_cb = true ∧ c4ctx.fired = [] ∧
      c4ctx.cfg.min_time_between_reco_ms < 4294967296 ∧
      RegSeq 0 [AjOp.registerPacket false 100, AjOp.registerPacket false 700] ∧
      List.Chain' (fun a b => b.1 + c4ctx.cfg.min_time_between_reco_ms ≤ a.1)
        (aj_run c4ctx [AjOp.registerPacket false 100, AjOp.registerPacket false 700]).fired :=
  ⟨rfl, rfl, by decide,
    RegSeq.pkt 0 100 false _ (by decide) (RegSeq.pkt 100 700 false _ (by decide) (RegSeq.nil 700)),
    aj_hop_reco_rate_limit c4ctx [AjOp.registerPacket false 100, AjOp.registerPacket false 700]
      0 rfl rfl (by decide)
      (RegSeq.pkt 0 100 false _ (by decide)
        (RegSeq.pkt 100 700 false _ (by decide) (RegSeq.nil 700)))⟩

/-- Running a concatenated call sequence runs the pieces in order. -/
theorem aj_run_append (ctx : AjCtx) (l1 l2 : List AjOp) :
    aj_run ctx (l1 ++ l2) = aj_run (aj_run ctx l1) l2 := by
  induction l1 generalizing ctx with
  | nil => rfl
  | cons op l1 ih =>
    simp only [List.cons_append, aj_run]
    exact ih _

/-- The 10 ms-spaced scenario splits into its two halves. -/
theorem c4ops_spaced_split : c4ops_spaced = c4opsSpacedA ++ c4opsSpacedB := by decide

/-- The 1 ms-spaced scenario splits into its two halves. -/
theorem c4ops_fast_split : c4ops_fast = c4opsFastA ++ c4opsFastB := by decide

set_option maxRecDepth 40000 in
/-- Midpoint context of the 10 ms-spaced scenario. -/
theorem c4midSpaced_eq : aj_run c4ctx c4opsSpacedA = c4midSpaced := rfl

set_option maxRecDepth 40000 in
/-- Midpoint context of the 1 ms-spaced scenario. -/
theorem c4midFast_eq : aj_run c4ctx c4opsFastA = c4midFast := rfl

/-- C4 counterexample: the scenario exactly as claimed — config
`{window=100 BY_COUNT, threshold=30, min_bad=5, consec=1, hold=0, min_reco=0}` with a
registered callback, 100 packets of which 30 are bad, uniformly distributed (here 1 ms
apart, at t = 0..99) — ends JAMMED with score 30 but fires the callback ZERO times, not
once: `aj_internal_apply_cfg` hardens `min_time_between_reco_ms = 0` to 500 ms, and
`sub32 99 0 = 99 < 500` suppresses the recommendation. -/
theorem aj_detection_threshold_counterexample :
    (aj_run c4ctx c4ops_fast).state = AjState.jammed ∧
      (aj_run c4ctx c4ops_fast).last_report.score = 30 ∧
      (aj_run c4ctx c4ops_fast).fired = [] := by
  rw [c4ops_fast_split, aj_run_append, c4midFast_eq]
  set_option maxRecDepth 40000 in decide

/-- C4 (amended): same scenario with the packet timestamps spanning the hardened 500 ms
recommendation guard (10 ms apart, the 100th packet at t = 1000): after the 100th packet
the context is JAMMED, the callback fired exactly once, and the reported score is 30. -/
theorem aj_detection_threshold_scenario :
    (aj_run c4ctx c4ops_spaced).state = AjState.jammed ∧
      (aj_run c4ctx c4ops_spaced).fired.length = 1 ∧
      (aj_run c4ctx c4ops_spaced).last_report.score = 30 := by
  rw [c4ops_spaced_split, aj_run_append, c4midSpaced_eq]
  set_option maxRecDepth 40000 in decide

/-- Witness for C1 at a concrete input. -/
theorem glock_single_advance_witness :
    ([0, 1, 0] : List Nat) ≠ [] ∧
      ((runHopCalls 5 (fun r i => 100 * r + i) (FHSSBeginHopCycle ⟨2, false, 0⟩) [0, 1, 0]).1.ptrSynced
          = (2 + 1) % 5 ∧
        ∀ p ∈ (runHopCalls 5 (fun r i => 100 * r + i) (FHSSBeginHopCycle ⟨2, false, 0⟩) [0, 1, 0]).2,
          p.2 = 100 * p.1 + ((2 + 1) % 5)) :=
  ⟨by decide, glock_single_advance 5 (fun r i => 100 * r + i) ⟨2, false, 0⟩ [0, 1, 0] (by decide)⟩

end FlyOrDie
